import Mathlib

/-!
Verification of the sales anomaly-detection core of this repository
(`src/ai/anomaly.py`, class `SalesAnomalyDetector` and the convenience
entry point `detect_sales_anomalies`).

The Python module is shallowly embedded as follows.

* A `pandas` numeric cell is modelled by `PFloat`: a finite rational,
  `+inf`, `-inf` or `NaN`, so that IEEE division is represented
  faithfully (`100.0 / 0.0 = +inf`, `0.0 / 0.0 = NaN`) and `fillna`
  can be told apart from an infinity.
* The order timestamp is modelled by the two calendar attributes the
  code reads (`dt.dayofweek`, `dt.month`); `dt.quarter` is derived
  from the month exactly as pandas derives it.
* `pd.Categorical(column).codes` is modelled by `pdCodes`: the
  categories of a column are its distinct values in sorted order and
  every cell is mapped to the index of its value among the categories
  (a value outside the categories codes to `-1`, as pandas codes
  missing values).
* The external numeric routines — numpy's `log1p`, the square root
  used by `StandardScaler`, and `sklearn`'s `IsolationForest`
  training, which is a deterministic function of the training data
  and the `random_state` seed — are abstracted by a `NumLib`
  parameter; every theorem below is proved for every such library.
  The fitted forest is represented by its `decision_function`;
  `IsolationForest.predict` returns `-1` exactly where
  `decision_function` is negative, which is sklearn's defining
  relationship between the two, and is embedded directly.
* `StandardScaler` stores the per-column mean and scale of the fit
  batch, where the scale of a zero-variance column is 1.0 (sklearn's
  `_handle_zeros_in_scale`), and both `fit_transform` and `transform`
  reject an empty batch or a non-finite value (sklearn's
  `check_array`).
* A raised Python exception is modelled by `Except.error` carrying
  the message.
-/

/-- A pandas/numpy float cell: a finite rational, an infinity, or `NaN`. -/
inductive PFloat where
  | fin (q : ℚ)
  | posInf
  | negInf
  | nan
deriving DecidableEq, Repr

/-- IEEE-style division on `PFloat`, as numpy performs it
(`x / 0 = ±inf` for `x ≠ 0`, `0 / 0 = NaN`, `NaN` propagates). -/
def PFloat.div : PFloat → PFloat → PFloat
  | .fin a, .fin b =>
      if b = 0 then (if a = 0 then .nan else if 0 < a then .posInf else .negInf)
      else .fin (a / b)
  | .fin _, .posInf => .fin 0
  | .fin _, .negInf => .fin 0
  | .posInf, .fin b => if b < 0 then .negInf else .posInf
  | .negInf, .fin b => if b < 0 then .posInf else .negInf
  | .nan, _ => .nan
  | _, _ => .nan

/-- IEEE-style subtraction on `PFloat` (`NaN` propagates, `inf - inf = NaN`). -/
def PFloat.sub : PFloat → PFloat → PFloat
  | .fin a, .fin b => .fin (a - b)
  | .posInf, .fin _ => .posInf
  | .negInf, .fin _ => .negInf
  | .fin _, .posInf => .negInf
  | .fin _, .negInf => .posInf
  | .posInf, .negInf => .posInf
  | .negInf, .posInf => .negInf
  | _, _ => .nan

/-- A cell is finite when it is a rational number (neither `±inf` nor `NaN`). -/
def PFloat.isFinite : PFloat → Bool
  | .fin _ => true
  | _ => false

/-- The rational value of a finite cell (0 on non-finite cells; only
applied to cells that passed the finiteness check). -/
def PFloat.toQ : PFloat → ℚ
  | .fin q => q
  | _ => 0

/-- `Series.fillna(0)`: replace `NaN` by 0; infinities are NOT missing
values for pandas and pass through unchanged. -/
def fillna0 : PFloat → PFloat
  | .nan => .fin 0
  | x => x

/-- The calendar attributes of `ORDERDATE` that `prepare_features` reads
through the pandas `dt` accessor. -/
structure OrderDate where
  dayofweek : ℕ
  month : ℕ
deriving DecidableEq, Repr

/-- `dt.quarter` as pandas derives it from the month. -/
def OrderDate.quarter (d : OrderDate) : ℕ := (d.month - 1) / 3 + 1

/-- One row of the sales table, with the columns the anomaly core reads. -/
structure OrderRecord where
  ORDERNUMBER : ℤ
  SALES : ℚ
  QUANTITYORDERED : ℚ
  ORDERDATE : OrderDate
  PRODUCTLINE : String
  COUNTRY : String
  STATUS : String
deriving DecidableEq, Repr

/-- The categories that `pd.Categorical(values)` assigns: the distinct
values of the column, sorted ascending. -/
def pdCategories (values : List String) : List String :=
  List.insertionSort (· ≤ ·) values.dedup

/-- `pd.Categorical(values).codes`: each cell is replaced by the index of
its value among the categories of this very column; a value outside the
categories (pandas: a missing value) codes to `-1`. -/
def pdCodes (values : List String) : List ℤ :=
  let cats := pdCategories values
  values.map fun v => if v ∈ cats then (cats.indexOf v : ℤ) else -1

/-- The external numeric library: numpy's `log1p`, the square root used
by the scaler, and `IsolationForest` training.  `trainForest` receives
the contamination rate, the `random_state` seed and the scaled training
matrix, and returns the `decision_function` of the trained forest — a
deterministic function, which is exactly what a fixed `random_state`
guarantees for sklearn. -/
structure NumLib where
  log1p : ℚ → ℚ
  sqrt : ℚ → ℚ
  trainForest : ℚ → ℕ → List (List PFloat) → (List PFloat → ℚ)

/-- One row of the feature matrix returned by `prepare_features`, fields
in the order of the `feature_columns` list of the source. -/
structure FeatureRow where
  SALES : PFloat
  QUANTITYORDERED : PFloat
  day_of_week : PFloat
  month : PFloat
  quarter : PFloat
  is_weekend : PFloat
  sales_per_quantity : PFloat
  log_sales : PFloat
  product_encoded : PFloat
  country_encoded : PFloat
  status_encoded : PFloat
deriving DecidableEq, Repr

/-- The feature row as the positional list of its 11 columns, in the
column order fixed by `feature_columns`. -/
def FeatureRow.toList (r : FeatureRow) : List PFloat :=
  [r.SALES, r.QUANTITYORDERED, r.day_of_week, r.month, r.quarter,
   r.is_weekend, r.sales_per_quantity, r.log_sales,
   r.product_encoded, r.country_encoded, r.status_encoded]

/-- `SalesAnomalyDetector.prepare_features`: time features from the
order date, `sales_per_quantity = SALES / QUANTITYORDERED`,
`log_sales = log1p(SALES)`, and per-call categorical codes via
`pd.Categorical`; finally `.fillna(0)` over the selected columns. -/
def prepare_features (lib : NumLib) (df : List OrderRecord) : List FeatureRow :=
  let pcodes := pdCodes (df.map (·.PRODUCTLINE))
  let ccodes := pdCodes (df.map (·.COUNTRY))
  let scodes := pdCodes (df.map (·.STATUS))
  (df.zip (pcodes.zip (ccodes.zip scodes))).map fun rc =>
    { SALES := fillna0 (.fin rc.1.SALES)
      QUANTITYORDERED := fillna0 (.fin rc.1.QUANTITYORDERED)
      day_of_week := fillna0 (.fin rc.1.ORDERDATE.dayofweek)
      month := fillna0 (.fin rc.1.ORDERDATE.month)
      quarter := fillna0 (.fin rc.1.ORDERDATE.quarter)
      is_weekend := fillna0 (.fin (if rc.1.ORDERDATE.dayofweek = 5 ∨ rc.1.ORDERDATE.dayofweek = 6 then 1 else 0))
      sales_per_quantity := fillna0 (PFloat.div (.fin rc.1.SALES) (.fin rc.1.QUANTITYORDERED))
      log_sales := fillna0 (.fin (lib.log1p rc.1.SALES))
      product_encoded := fillna0 (.fin (rc.2.1 : ℚ))
      country_encoded := fillna0 (.fin (rc.2.2.1 : ℚ))
      status_encoded := fillna0 (.fin (rc.2.2.2 : ℚ)) }

/-- Mean of a feature column (sklearn `StandardScaler`). -/
def colMean (col : List PFloat) : ℚ := (col.map PFloat.toQ).sum / col.length

/-- Biased variance of a feature column (sklearn `StandardScaler`,
`ddof = 0`): mean of squares minus square of the mean. -/
def colVar (col : List PFloat) : ℚ :=
  (col.map fun x => PFloat.toQ x ^ 2).sum / col.length - colMean col ^ 2

/-- Standardize one row against the stored per-column means and scales. -/
def scaleRow (means scales : List ℚ) (row : List PFloat) : List PFloat :=
  (row.zip (means.zip scales)).map fun p =>
    PFloat.div (PFloat.sub p.1 (.fin p.2.1)) (.fin p.2.2)

/-- The state populated by `fit`: the scaler's per-column means and
scales, and the trained forest, represented by its
`decision_function` over scaled rows. -/
structure FittedState where
  mean : List ℚ
  scale : List ℚ
  forest : List PFloat → ℚ

/-- The detector object.  `contamination` and `random_state` are set by
`__init__`; `fitted` is `none` until `fit` has completed. -/
structure SalesAnomalyDetector where
  contamination : ℚ
  random_state : ℕ
  fitted : Option FittedState

/-- `SalesAnomalyDetector.__init__`: stores the contamination rate,
fixes `random_state = 42`, and leaves the model unfitted. -/
def SalesAnomalyDetector.init (contamination : ℚ) : SalesAnomalyDetector :=
  { contamination := contamination, random_state := 42, fitted := none }

/-- `is_fitted`: true exactly when `fit` has populated the model state. -/
def SalesAnomalyDetector.is_fitted (d : SalesAnomalyDetector) : Bool :=
  d.fitted.isSome

/-- `SalesAnomalyDetector.fit`: build features, `scaler.fit_transform`
(which rejects an empty batch and non-finite values, and clamps a
zero-variance scale to 1.0), train the forest on the scaled matrix with
the configured contamination and seed, and mark the detector fitted. -/
def SalesAnomalyDetector.fit (lib : NumLib) (d : SalesAnomalyDetector)
    (df : List OrderRecord) : Except String SalesAnomalyDetector :=
  let features := prepare_features lib df
  if features.isEmpty then
    .error "Found array with 0 sample(s) while a minimum of 1 is required"
  else if features.any (fun r => r.toList.any fun x => !x.isFinite) then
    .error "Input contains infinity or a value too large"
  else
    let mat := features.map FeatureRow.toList
    let cols := mat.transpose
    let means := cols.map colMean
    let scales := cols.map fun c => let v := colVar c; if v = 0 then 1 else lib.sqrt v
    let features_scaled := mat.map (scaleRow means scales)
    let forest := lib.trainForest d.contamination d.random_state features_scaled
    .ok { d with fitted := some { mean := means, scale := scales, forest := forest } }

/-- One row of the frame returned by `predict`: the original record
(`df.copy()` keeps every original column unchanged) augmented with the
three new columns `anomaly_score`, `is_anomaly`, `anomaly_severity`. -/
structure AnomalyResult where
  record : OrderRecord
  anomaly_score : ℚ
  is_anomaly : Bool
  anomaly_severity : ℚ
deriving DecidableEq, Repr

/-- `SalesAnomalyDetector.predict`: raise when unfitted; otherwise build
features (with this call's own categorical codes, as the source does),
apply the stored scaler, score every row with the forest's
`decision_function`, flag rows where `IsolationForest.predict` is `-1`
— sklearn returns `-1` exactly where the decision function is negative
— and append the three result columns to a copy of the input frame. -/
def SalesAnomalyDetector.predict (lib : NumLib) (d : SalesAnomalyDetector)
    (df : List OrderRecord) : Except String (List AnomalyResult) :=
  match d.fitted with
  | none => .error "Model must be fitted before making predictions"
  | some st =>
      let features := prepare_features lib df
      if features.any (fun r => r.toList.any fun x => !x.isFinite) then
        .error "Input contains infinity or a value too large"
      else
        let features_scaled := features.map fun r => scaleRow st.mean st.scale r.toList
        let anomaly_scores := features_scaled.map st.forest
        let anomaly_predictions :=
          features_scaled.map fun x => if st.forest x < 0 then (-1 : ℤ) else 1
        .ok ((df.zip (anomaly_scores.zip anomaly_predictions)).map fun p =>
          { record := p.1
            anomaly_score := p.2.1
            is_anomaly := p.2.2 == -1
            anomaly_severity := |p.2.1| })

/-- The dictionary returned by `get_anomaly_summary`: the no-anomaly
branch carries count, rate and a message; the main branch carries
count, rate, mean score, most extreme (minimum) score, the three
per-category frequency dictionaries, and the top-5 list of
(ORDERNUMBER, SALES, anomaly_score) triplets. -/
inductive AnomalySummary where
  | empty (total_anomalies : ℕ) (anomaly_rate : ℚ) (message : String)
  | full (total_anomalies : ℕ) (anomaly_rate : ℚ) (avg_anomaly_score : ℚ)
      (max_anomaly_score : ℚ)
      (anomaly_by_product anomaly_by_country anomaly_by_status : List (String × ℕ))
      (top_anomalous_orders : List (ℤ × ℚ × ℚ))
deriving DecidableEq, Repr

/-- `Series.value_counts().to_dict()`: the finite map sending each
distinct value of the column to its number of occurrences (pandas lists
the entries by descending count, which is immaterial to the dictionary
this produces; we keep the distinct values in the order `dedup` gives). -/
def valueCounts (xs : List String) : List (String × ℕ) :=
  xs.dedup.map fun v => (v, xs.count v)

/-- Dictionary lookup in an association list, defaulting to 0. -/
def lookupCount (m : List (String × ℕ)) (c : String) : ℕ :=
  (m.find? (fun p => p.1 == c)).elim 0 (·.2)

/-- `Series.min()` on the scores of a non-empty frame. -/
def seriesMin : List ℚ → ℚ
  | [] => 0
  | x :: xs => xs.foldl min x

/-- Comparison by `anomaly_score`, the key of `nsmallest`. -/
def scoreLe (a b : AnomalyResult) : Prop := a.anomaly_score ≤ b.anomaly_score

instance : DecidableRel scoreLe := fun a b =>
  inferInstanceAs (Decidable (a.anomaly_score ≤ b.anomaly_score))

instance : IsTotal AnomalyResult scoreLe := ⟨fun a b => le_total a.anomaly_score b.anomaly_score⟩

instance : IsTrans AnomalyResult scoreLe := ⟨fun _ _ _ h1 h2 => le_trans h1 h2⟩

/-- `DataFrame.nsmallest(n, column)` with the default `keep = "first"`:
the first `n` rows of the frame stably sorted ascending by the column,
so that ties keep their original relative order. -/
def nsmallestByScore (n : ℕ) (rows : List AnomalyResult) : List AnomalyResult :=
  (List.insertionSort scoreLe rows).take n

/-- `SalesAnomalyDetector.get_anomaly_summary` (the method reads only
its `results_df` argument): filter the anomalous rows; with none,
return the zero summary with its message; otherwise count, rate as a
percentage, mean and minimum score, `value_counts` per categorical
column, and the 5 smallest-score rows as
(ORDERNUMBER, SALES, anomaly_score) triplets. -/
def get_anomaly_summary (results : List AnomalyResult) : AnomalySummary :=
  let anomalies := results.filter (·.is_anomaly)
  if anomalies.length = 0 then
    .empty 0 0 "No anomalies detected"
  else
    .full anomalies.length
      ((anomalies.length : ℚ) / (results.length : ℚ) * 100)
      ((anomalies.map (·.anomaly_score)).sum / (anomalies.length : ℚ))
      (seriesMin (anomalies.map (·.anomaly_score)))
      (valueCounts (anomalies.map (·.record.PRODUCTLINE)))
      (valueCounts (anomalies.map (·.record.COUNTRY)))
      (valueCounts (anomalies.map (·.record.STATUS)))
      ((nsmallestByScore 5 anomalies).map fun a =>
        (a.record.ORDERNUMBER, a.record.SALES, a.anomaly_score))

/-- `detect_sales_anomalies`: construct a fresh detector with the given
contamination, `fit` on the batch, `predict` the same batch, summarize. -/
def detect_sales_anomalies (lib : NumLib) (contamination : ℚ)
    (df : List OrderRecord) : Except String (List AnomalyResult × AnomalySummary) := do
  let detector := SalesAnomalyDetector.init contamination
  let fitted ← detector.fit lib df
  let results ← fitted.predict lib df
  .ok (results, get_anomaly_summary results)

/-- Total-anomaly count carried by either branch of the summary. -/
def AnomalySummary.total : AnomalySummary → ℕ
  | .empty t _ _ => t
  | .full t _ _ _ _ _ _ _ => t

/-- Anomaly rate carried by either branch of the summary. -/
def AnomalySummary.rate : AnomalySummary → ℚ
  | .empty _ r _ => r
  | .full _ r _ _ _ _ _ _ => r

/-- Whether the summary is the main (anomalies present) branch. -/
def AnomalySummary.isFull : AnomalySummary → Bool
  | .empty _ _ _ => false
  | .full _ _ _ _ _ _ _ _ => true

/-- Mean anomaly score of the main branch (0 on the zero branch). -/
def AnomalySummary.avgScore : AnomalySummary → ℚ
  | .empty _ _ _ => 0
  | .full _ _ a _ _ _ _ _ => a

/-- Most-extreme (minimum) anomaly score of the main branch. -/
def AnomalySummary.minScore : AnomalySummary → ℚ
  | .empty _ _ _ => 0
  | .full _ _ _ m _ _ _ _ => m

/-- Per-product-line anomaly counts of the main branch. -/
def AnomalySummary.byProduct : AnomalySummary → List (String × ℕ)
  | .empty _ _ _ => []
  | .full _ _ _ _ bp _ _ _ => bp

/-- Per-country anomaly counts of the main branch. -/
def AnomalySummary.byCountry : AnomalySummary → List (String × ℕ)
  | .empty _ _ _ => []
  | .full _ _ _ _ _ bc _ _ => bc

/-- Per-status anomaly counts of the main branch. -/
def AnomalySummary.byStatus : AnomalySummary → List (String × ℕ)
  | .empty _ _ _ => []
  | .full _ _ _ _ _ _ bs _ => bs

/-- Top anomalous orders of the main branch. -/
def AnomalySummary.topOrders : AnomalySummary → List (ℤ × ℚ × ℚ)
  | .empty _ _ _ => []
  | .full _ _ _ _ _ _ _ t => t

/-- `m` is the minimum of the list: a member that bounds every member
from below. -/
def IsMinOf (m : ℚ) (l : List ℚ) : Prop := m ∈ l ∧ ∀ x ∈ l, m ≤ x

/-- The association list is the frequency mapping of the column: every
category is sent to the number of its occurrences (0 when absent). -/
def FreqCountsOf (m : List (String × ℕ)) (xs : List String) : Prop :=
  ∀ c : String, lookupCount m c = (xs.filter fun v => v = c).length

/-- The triplet of an anomalous row, as `top_anomalous_orders` lists it. -/
def resultTriplet (a : AnomalyResult) : ℤ × ℚ × ℚ :=
  (a.record.ORDERNUMBER, a.record.SALES, a.anomaly_score)

/-- `top` lists the five most anomalous of the rows: it has
`min 5 (#rows)` entries, its scores are ascending and are exactly the
first five of the sorted score list, every entry is the triplet of one
of the rows, no listed score exceeds an unlisted one, and entries with
tied scores keep their original relative order. -/
def TopRankedBy (top : List (ℤ × ℚ × ℚ)) (rows : List AnomalyResult) : Prop :=
  top.length = min 5 rows.length ∧
  List.Sorted (fun a b => a.2.2 ≤ b.2.2) top ∧
  (∀ e ∈ top, ∃ a ∈ rows, e = resultTriplet a) ∧
  top.map (fun e => e.2.2) =
    (List.insertionSort (· ≤ ·) (rows.map (·.anomaly_score))).take 5 ∧
  (∀ x ∈ top.map (fun e => e.2.2),
    ∀ y ∈ (List.insertionSort (· ≤ ·) (rows.map (·.anomaly_score))).drop 5, x ≤ y) ∧
  (∀ q : ℚ, top.filter (fun e => e.2.2 = q) <+:
    (rows.filter fun a => a.anomaly_score = q).map resultTriplet)

theorem length_pdCodes (xs : List String) : (pdCodes xs).length = xs.length := by
  simp [pdCodes]

theorem length_prepare_features (lib : NumLib) (df : List OrderRecord) :
    (prepare_features lib df).length = df.length := by
  simp [prepare_features, pdCodes]

theorem foldl_min_mem (xs : List ℚ) (x : ℚ) : xs.foldl min x ∈ x :: xs := by
  induction xs generalizing x with
  | nil => simp
  | cons y t ih =>
      rw [List.foldl_cons]
      rcases List.mem_cons.mp (ih (min x y)) with h1 | h1
      · rcases min_choice x y with h2 | h2 <;> rw [h1, h2] <;> simp
      · exact List.mem_cons_of_mem _ (List.mem_cons_of_mem _ h1)

theorem foldl_min_le (xs : List ℚ) (x : ℚ) : ∀ y ∈ x :: xs, xs.foldl min x ≤ y := by
  induction xs generalizing x with
  | nil =>
      intro y hy
      rcases List.mem_cons.mp hy with h1 | hy2
      · rw [h1]; simp
      · cases hy2
  | cons z t ih =>
      intro y hy
      rw [List.foldl_cons]
      have hmin : t.foldl min (min x z) ≤ min x z :=
        ih (min x z) (min x z) (List.mem_cons_self _ _)
      rcases List.mem_cons.mp hy with h1 | hy2
      · rw [h1]; exact le_trans hmin (min_le_left _ _)
      rcases List.mem_cons.mp hy2 with h2 | hy3
      · rw [h2]; exact le_trans hmin (min_le_right _ _)
      · exact ih (min x z) y (List.mem_cons_of_mem _ hy3)

theorem seriesMin_isMin {l : List ℚ} (h : l ≠ []) : IsMinOf (seriesMin l) l := by
  cases l with
  | nil => exact absurd rfl h
  | cons x xs => exact ⟨foldl_min_mem xs x, foldl_min_le xs x⟩

theorem find?_beq_self {c : String} {l : List String} (h : c ∈ l) :
    l.find? (fun v => v == c) = some c := by
  induction l with
  | nil => cases h
  | cons a t ih =>
      by_cases ha : a = c
      · subst ha; simp
      · rcases List.mem_cons.mp h with h1 | ht
        · exact absurd h1.symm ha
        · rw [List.find?_cons_of_neg _ (by simp [ha]), ih ht]

theorem freqCountsOf_valueCounts (xs : List String) : FreqCountsOf (valueCounts xs) xs := by
  intro c
  unfold lookupCount valueCounts
  rw [List.find?_map]
  by_cases h : c ∈ xs
  · have hd : c ∈ xs.dedup := List.mem_dedup.mpr h
    have hf : xs.dedup.find? ((fun p => p.1 == c) ∘ fun v => (v, xs.count v)) = some c := by
      have h2 := find?_beq_self hd
      simpa [Function.comp] using h2
    rw [hf]
    simp only [Option.map_some', Option.elim_some]
    rw [List.count_eq_countP, List.countP_eq_length_filter]
    have hpred : ∀ x ∈ xs, (x == c) = decide (x = c) := fun x _ => by
      by_cases hx : x = c <;> simp [hx]
    rw [List.filter_congr hpred]
  · have hd : c ∉ xs.dedup := fun hc => h (List.mem_dedup.mp hc)
    have hf : xs.dedup.find? ((fun p => p.1 == c) ∘ fun v => (v, xs.count v)) = none := by
      rw [List.find?_eq_none]
      intro x hx
      simp only [Function.comp_apply, beq_iff_eq]
      exact fun hxc => hd (hxc ▸ hx)
    rw [hf]
    have hnil : xs.filter (fun v => v = c) = [] := by
      rw [List.filter_eq_nil_iff]
      intro a ha
      simp only [decide_eq_true_eq]
      exact fun hac => h (hac ▸ ha)
    simp [hnil]

theorem map_score_orderedInsert (a : AnomalyResult) (l : List AnomalyResult) :
    (List.orderedInsert scoreLe a l).map (·.anomaly_score) =
      List.orderedInsert (· ≤ ·) a.anomaly_score (l.map (·.anomaly_score)) := by
  induction l with
  | nil => rfl
  | cons b t ih =>
      simp only [List.orderedInsert, List.map_cons]
      by_cases h : scoreLe a b
      · rw [if_pos h, if_pos (show a.anomaly_score ≤ b.anomaly_score from h)]
        simp
      · rw [if_neg h, if_neg (show ¬a.anomaly_score ≤ b.anomaly_score from h)]
        simp [ih]

theorem map_score_insertionSort (l : List AnomalyResult) :
    (List.insertionSort scoreLe l).map (·.anomaly_score) =
      List.insertionSort (· ≤ ·) (l.map (·.anomaly_score)) := by
  induction l with
  | nil => rfl
  | cons a t ih =>
      simp only [List.insertionSort, List.map_cons]
      rw [map_score_orderedInsert, ih]

theorem filter_score_orderedInsert (q : ℚ) (a : AnomalyResult) (l : List AnomalyResult) :
    (List.orderedInsert scoreLe a l).filter (fun b => b.anomaly_score = q) =
      if a.anomaly_score = q then a :: l.filter (fun b => b.anomaly_score = q)
      else l.filter (fun b => b.anomaly_score = q) := by
  induction l with
  | nil => by_cases ha : a.anomaly_score = q <;> simp [List.orderedInsert, ha]
  | cons b t ih =>
      simp only [List.orderedInsert]
      by_cases h : scoreLe a b
      · rw [if_pos h]
        by_cases ha : a.anomaly_score = q <;> simp [List.filter_cons, ha]
      · rw [if_neg h]
        have hba : b.anomaly_score < a.anomaly_score :=
          not_le.mp (show ¬a.anomaly_score ≤ b.anomaly_score from h)
        by_cases hb : b.anomaly_score = q
        · by_cases ha : a.anomaly_score = q
          · exact absurd (hb.trans ha.symm) (ne_of_lt hba)
          · simp [List.filter_cons, hb, ha, ih]
        · by_cases ha : a.anomaly_score = q <;> simp [List.filter_cons, hb, ha, ih]

theorem filter_score_insertionSort (q : ℚ) (l : List AnomalyResult) :
    (List.insertionSort scoreLe l).filter (fun b => b.anomaly_score = q) =
      l.filter (fun b => b.anomaly_score = q) := by
  induction l with
  | nil => rfl
  | cons a t ih =>
      simp only [List.insertionSort]
      rw [filter_score_orderedInsert, List.filter_cons]
      by_cases ha : a.anomaly_score = q <;> simp [ha, ih]

theorem nsmallest_scores (rows : List AnomalyResult) :
    ((nsmallestByScore 5 rows).map resultTriplet).map (fun e => e.2.2) =
      (List.insertionSort (· ≤ ·) (rows.map (·.anomaly_score))).take 5 := by
  rw [← map_score_insertionSort, ← List.map_take]
  simp [nsmallestByScore, List.map_map]
  rfl

theorem topRankedBy_nsmallest (rows : List AnomalyResult) :
    TopRankedBy ((nsmallestByScore 5 rows).map resultTriplet) rows := by
  have hperm := List.perm_insertionSort scoreLe rows
  have hsorted : List.Sorted scoreLe (List.insertionSort scoreLe rows) :=
    List.sorted_insertionSort scoreLe rows
  refine ⟨?_, ?_, ?_, nsmallest_scores rows, ?_, ?_⟩
  · simp [nsmallestByScore, List.length_take, hperm.length_eq]
  · have h1 : List.Pairwise scoreLe ((List.insertionSort scoreLe rows).take 5) :=
      hsorted.sublist (List.take_sublist 5 _)
    exact h1.map resultTriplet (fun a b hab => hab)
  · intro e he
    rcases List.mem_map.mp he with ⟨a, ha, rfl⟩
    exact ⟨a, hperm.mem_iff.mp (List.mem_of_mem_take ha), rfl⟩
  · intro x hx y hy
    rw [nsmallest_scores rows] at hx
    have hq : List.Sorted (· ≤ ·)
        (List.insertionSort (· ≤ ·) (rows.map (·.anomaly_score))) :=
      List.sorted_insertionSort _ _
    have hsplit : List.Pairwise (· ≤ ·)
        ((List.insertionSort (· ≤ ·) (rows.map (·.anomaly_score))).take 5 ++
         (List.insertionSort (· ≤ ·) (rows.map (·.anomaly_score))).drop 5) := by
      rw [List.take_append_drop]; exact hq
    exact (List.pairwise_append.mp hsplit).2.2 x hx y hy
  · intro q
    have h1 : ((nsmallestByScore 5 rows).map resultTriplet).filter (fun e => e.2.2 = q) =
        (((List.insertionSort scoreLe rows).take 5).filter
          (fun a => a.anomaly_score = q)).map resultTriplet := by
      rw [List.filter_map]; rfl
    rw [h1]
    have hpre : (List.insertionSort scoreLe rows).take 5 <+: List.insertionSort scoreLe rows :=
      List.take_prefix 5 _
    have h3 := hpre.filter (fun a => decide (a.anomaly_score = q))
    rw [filter_score_insertionSort] at h3
    exact h3.map resultTriplet

theorem predict_eq_ok {lib : NumLib} {d : SalesAnomalyDetector} {df : List OrderRecord}
    {res : List AnomalyResult} (h : d.predict lib df = .ok res) :
    ∃ st, d.fitted = some st ∧
      res = (df.zip ((prepare_features lib df).map fun r =>
          (st.forest (scaleRow st.mean st.scale r.toList),
           if st.forest (scaleRow st.mean st.scale r.toList) < 0 then (-1 : ℤ) else 1))).map
        (fun p => { record := p.1, anomaly_score := p.2.1,
                    is_anomaly := p.2.2 == -1, anomaly_severity := |p.2.1| }) := by
  unfold SalesAnomalyDetector.predict at h
  cases hd : d.fitted with
  | none => rw [hd] at h; exact absurd h (by simp)
  | some st =>
      rw [hd] at h
      dsimp only at h
      refine ⟨st, rfl, ?_⟩
      by_cases hfin : (prepare_features lib df).any (fun r => r.toList.any fun x => !x.isFinite)
      · rw [if_pos hfin] at h; exact absurd h (by simp)
      · rw [if_neg hfin] at h
        have h2 : _ = res := Except.ok.inj h
        rw [← h2, List.zip_map', List.map_map]
        rfl

/-- A concrete numeric library for evaluating the embedding on concrete
inputs (every claim theorem holds for every library; witnesses pick one). -/
def libId : NumLib :=
  { log1p := id, sqrt := id, trainForest := fun _ _ _ => fun _ => 0 }

/-- A concrete order record. -/
def recPlanes : OrderRecord :=
  { ORDERNUMBER := 10101, SALES := 100, QUANTITYORDERED := 2,
    ORDERDATE := { dayofweek := 2, month := 5 },
    PRODUCTLINE := "Planes", COUNTRY := "USA", STATUS := "Shipped" }

/-- A concrete order record with a different product line. -/
def recTrains : OrderRecord :=
  { ORDERNUMBER := 10102, SALES := 250, QUANTITYORDERED := 5,
    ORDERDATE := { dayofweek := 6, month := 11 },
    PRODUCTLINE := "Trains", COUNTRY := "France", STATUS := "Shipped" }

/-- The degenerate record of the spec's test property 6:
`quantity_ordered = 0`, `sales = 100`. -/
def recZeroQty : OrderRecord :=
  { ORDERNUMBER := 10103, SALES := 100, QUANTITYORDERED := 0,
    ORDERDATE := { dayofweek := 0, month := 1 },
    PRODUCTLINE := "Classic Cars", COUNTRY := "USA", STATUS := "Shipped" }

/-- An explicitly fitted detector state (identity scaler, constant-zero
decision function). -/
def stId : FittedState :=
  { mean := List.replicate 11 0, scale := List.replicate 11 1, forest := fun _ => 0 }

/-- A detector in the fitted state. -/
def dFitted : SalesAnomalyDetector :=
  { contamination := 1/10, random_state := 42, fitted := some stId }

/-- A one-record batch. -/
def dfOne : List OrderRecord := [recPlanes]

/-- The result frame `predict` produces for `dfOne` under `dFitted`. -/
def resOne : List AnomalyResult :=
  [{ record := recPlanes, anomaly_score := 0, is_anomaly := false, anomaly_severity := 0 }]

theorem predOne_eq : dFitted.predict libId dfOne = .ok resOne := by
  simp [SalesAnomalyDetector.predict, dFitted, stId, libId, dfOne, resOne,
    prepare_features, pdCodes, pdCategories, scaleRow, FeatureRow.toList,
    fillna0, PFloat.div, PFloat.sub, PFloat.isFinite, recPlanes,
    List.insertionSort, List.orderedInsert, OrderDate.quarter]

/-- C2: a freshly constructed detector reports `is_fitted = false`, and
every `predict` call on it fails with the not-fitted error and produces
no result. -/
theorem c2_predict_before_fit_errors (lib : NumLib) (c : ℚ) (df : List OrderRecord) :
    (SalesAnomalyDetector.init c).is_fitted = false ∧
    (SalesAnomalyDetector.init c).predict lib df =
      .error "Model must be fitted before making predictions" :=
  ⟨rfl, rfl⟩

/-- C4: whenever `predict` returns a result frame, it has exactly one row
per input row, positionally in input order, and each row carries the
original record unchanged (the `AnomalyResult` shape adds exactly the
three fields `anomaly_score`, `is_anomaly`, `anomaly_severity`). -/
theorem c4_predict_preserves_rows (lib : NumLib) (d : SalesAnomalyDetector)
    (df : List OrderRecord) (res : List AnomalyResult)
    (h : d.predict lib df = .ok res) :
    res.length = df.length ∧ res.map (·.record) = df := by
  obtain ⟨st, hst, hres⟩ := predict_eq_ok h
  subst hres
  constructor
  · simp [List.length_zip, List.length_map, length_prepare_features]
  · rw [List.map_map]
    exact List.map_fst_zip df _ (by simp [length_prepare_features])

theorem c4_witness :
    dFitted.predict libId dfOne = .ok resOne ∧
    (resOne.length = dfOne.length ∧ resOne.map (·.record) = dfOne) :=
  ⟨predOne_eq, c4_predict_preserves_rows libId dFitted dfOne resOne predOne_eq⟩

/-- C5: in every row of every predict result, `anomaly_severity` equals
the absolute value of that row's `anomaly_score`. -/
theorem c5_severity_is_abs (lib : NumLib) (d : SalesAnomalyDetector)
    (df : List OrderRecord) (res : List AnomalyResult)
    (h : d.predict lib df = .ok res) :
    ∀ r ∈ res, r.anomaly_severity = |r.anomaly_score| := by
  obtain ⟨st, hst, hres⟩ := predict_eq_ok h
  subst hres
  intro r hr
  rcases List.mem_map.mp hr with ⟨p, hp, rfl⟩
  rfl

theorem c5_witness :
    dFitted.predict libId dfOne = .ok resOne ∧
    ({ record := recPlanes, anomaly_score := 0, is_anomaly := false,
       anomaly_severity := 0 : AnomalyResult }.anomaly_severity =
      |({ record := recPlanes, anomaly_score := 0, is_anomaly := false,
          anomaly_severity := 0 : AnomalyResult }.anomaly_score)|) :=
  ⟨predOne_eq,
   c5_severity_is_abs libId dFitted dfOne resOne predOne_eq _ (by simp [resOne])⟩

/-- C10: in every row of every predict result, the boolean flag agrees
with the sign of the score: `is_anomaly` holds exactly when
`anomaly_score` is strictly negative. -/
theorem c10_flag_iff_negative_score (lib : NumLib) (d : SalesAnomalyDetector)
    (df : List OrderRecord) (res : List AnomalyResult)
    (h : d.predict lib df = .ok res) :
    ∀ r ∈ res, r.is_anomaly = true ↔ r.anomaly_score < 0 := by
  obtain ⟨st, hst, hres⟩ := predict_eq_ok h
  subst hres
  intro r hr
  rcases List.mem_map.mp hr with ⟨p, hp, rfl⟩
  have hp2 := (List.of_mem_zip hp).2
  rcases List.mem_map.mp hp2 with ⟨fr, hfr, hpair⟩
  show (p.2.2 == -1) = true ↔ p.2.1 < 0
  rw [← hpair]
  by_cases hneg : st.forest (scaleRow st.mean st.scale fr.toList) < 0
  · simp [hneg]
  · simp [hneg, beq_iff_eq]

theorem c10_witness :
    dFitted.predict libId dfOne = .ok resOne ∧
    ({ record := recPlanes, anomaly_score := 0, is_anomaly := false,
       anomaly_severity := 0 : AnomalyResult }.is_anomaly = true ↔
     ({ record := recPlanes, anomaly_score := 0, is_anomaly := false,
        anomaly_severity := 0 : AnomalyResult }.anomaly_score < 0)) :=
  ⟨predOne_eq,
   c10_flag_iff_negative_score libId dFitted dfOne resOne predOne_eq _ (by simp [resOne])⟩

/-- C6: on a result set with at least one anomalous row, the summary
takes the main branch and reports the anomalous-row count, the rate as
`count / total * 100`, the mean score over the anomalous rows, the
minimum (most extreme) score, the per-category frequency mappings for
product line, country and status, and the five most anomalous records
ranked ascending by score with ties in original input order, each as an
(identifier, sale amount, score) triplet. -/
theorem c6_summary_with_anomalies (results : List AnomalyResult)
    (h : results.filter (·.is_anomaly) ≠ []) :
    (get_anomaly_summary results).isFull = true ∧
    (get_anomaly_summary results).total = (results.filter (·.is_anomaly)).length ∧
    (get_anomaly_summary results).rate =
      ((results.filter (·.is_anomaly)).length : ℚ) / (results.length : ℚ) * 100 ∧
    (get_anomaly_summary results).avgScore =
      ((results.filter (·.is_anomaly)).map (·.anomaly_score)).sum /
        ((results.filter (·.is_anomaly)).length : ℚ) ∧
    IsMinOf ((get_anomaly_summary results).minScore)
      ((results.filter (·.is_anomaly)).map (·.anomaly_score)) ∧
    FreqCountsOf ((get_anomaly_summary results).byProduct)
      ((results.filter (·.is_anomaly)).map (·.record.PRODUCTLINE)) ∧
    FreqCountsOf ((get_anomaly_summary results).byCountry)
      ((results.filter (·.is_anomaly)).map (·.record.COUNTRY)) ∧
    FreqCountsOf ((get_anomaly_summary results).byStatus)
      ((results.filter (·.is_anomaly)).map (·.record.STATUS)) ∧
    TopRankedBy ((get_anomaly_summary results).topOrders)
      (results.filter (·.is_anomaly)) := by
  have hlen : ¬((results.filter (·.is_anomaly)).length = 0) := by
    simpa [List.length_eq_zero] using h
  have hs : get_anomaly_summary results =
      .full (results.filter (·.is_anomaly)).length
        (((results.filter (·.is_anomaly)).length : ℚ) / (results.length : ℚ) * 100)
        (((results.filter (·.is_anomaly)).map (·.anomaly_score)).sum /
          ((results.filter (·.is_anomaly)).length : ℚ))
        (seriesMin ((results.filter (·.is_anomaly)).map (·.anomaly_score)))
        (valueCounts ((results.filter (·.is_anomaly)).map (·.record.PRODUCTLINE)))
        (valueCounts ((results.filter (·.is_anomaly)).map (·.record.COUNTRY)))
        (valueCounts ((results.filter (·.is_anomaly)).map (·.record.STATUS)))
        ((nsmallestByScore 5 (results.filter (·.is_anomaly))).map fun a =>
          (a.record.ORDERNUMBER, a.record.SALES, a.anomaly_score)) := by
    simp only [get_anomaly_summary]
    rw [if_neg hlen]
  rw [hs]
  exact ⟨rfl, rfl, rfl, rfl,
    seriesMin_isMin (by rwa [Ne, List.map_eq_nil_iff]),
    freqCountsOf_valueCounts _, freqCountsOf_valueCounts _, freqCountsOf_valueCounts _,
    topRankedBy_nsmallest _⟩

/-- A concrete result set with one anomalous and one normal row. -/
def resultsW6 : List AnomalyResult :=
  [{ record := recPlanes, anomaly_score := -1/2, is_anomaly := true, anomaly_severity := 1/2 },
   { record := recTrains, anomaly_score := 1/10, is_anomaly := false, anomaly_severity := 1/10 }]

theorem c6_witness :
    resultsW6.filter (·.is_anomaly) ≠ [] ∧
    (get_anomaly_summary resultsW6).isFull = true :=
  ⟨by simp [resultsW6], (c6_summary_with_anomalies resultsW6 (by simp [resultsW6])).1⟩

/-- C7: on a result set with no anomalous row, the summary is returned
without error: zero count, zero rate and the explanatory message, with
no division performed. -/
theorem c7_summary_without_anomalies (results : List AnomalyResult)
    (h : results.filter (·.is_anomaly) = []) :
    get_anomaly_summary results = .empty 0 0 "No anomalies detected" := by
  simp [get_anomaly_summary, h]

/-- A concrete result set with no anomalous row. -/
def resultsW7 : List AnomalyResult :=
  [{ record := recTrains, anomaly_score := 1/4, is_anomaly := false, anomaly_severity := 1/4 }]

theorem c7_witness :
    resultsW7.filter (·.is_anomaly) = [] ∧
    get_anomaly_summary resultsW7 = .empty 0 0 "No anomalies detected" :=
  ⟨by simp [resultsW7], c7_summary_without_anomalies resultsW7 (by simp [resultsW7])⟩

/-- C1: REFUTED by the code — `prepare_features` rebuilds the
category→integer mapping from each call's own batch, so the same
category gets different codes at fit time and predict time: on the fit
batch `[recPlanes, recTrains]` the product line "Trains" is coded 1,
while on the predict batch `[recTrains]` the very same category is
coded 0.  The fit-time mapping is not stored or reused, and an unseen
category would simply be re-enumerated, not mapped to a sentinel. -/
theorem c1_encoding_unstable_across_calls :
    (prepare_features libId [recPlanes, recTrains]).map (·.product_encoded) =
      [PFloat.fin 0, PFloat.fin 1] ∧
    (prepare_features libId [recTrains]).map (·.product_encoded) =
      [PFloat.fin 0] := by
  have h : ("Planes" : String) ≤ "Trains" := by simp; decide
  constructor <;>
    simp [prepare_features, pdCodes, pdCategories, recPlanes, recTrains,
      List.insertionSort, List.orderedInsert, h, fillna0, List.indexOf,
      List.findIdx_cons]

/-- C3: REFUTED in its finiteness half — on the record with
`QUANTITYORDERED = 0` and `SALES = 100`, `prepare_features` does return
(nothing is raised), but the `sales_per_quantity` cell it produces is
`+inf` (float division of a positive number by zero), and `fillna(0)`
replaces only `NaN`, not infinities: a non-finite value reaches the
feature matrix instead of the claimed clamped finite number. -/
theorem c3_zero_quantity_gives_infinity :
    (prepare_features libId [recZeroQty]).map (·.sales_per_quantity) =
      [PFloat.posInf] ∧ PFloat.posInf.isFinite = false := by
  constructor
  · simp [prepare_features, pdCodes, pdCategories, recZeroQty,
      List.insertionSort, List.orderedInsert, fillna0, PFloat.div]
  · rfl

/-- A batch of five records — below the practical minimum batch size of
ten that the specification requires `fit` to reject. -/
def dfFive : List OrderRecord := List.replicate 5 recPlanes

/-- C8: REFUTED — `fit` performs no minimum-batch-size validation at
all: on a batch of 5 records it succeeds (no invalid-input error) and
sets the ready flag, so `is_fitted` becomes true instead of staying
false.  (Only the empty batch fails, and only because the scaler
rejects an empty array.) -/
theorem c8_fit_accepts_small_batch :
    dfFive.length = 5 ∧
    ((SalesAnomalyDetector.fit libId (SalesAnomalyDetector.init (1/10)) dfFive).toOption.map
      (·.is_fitted)) = some true := by
  constructor
  · rfl
  · simp [SalesAnomalyDetector.fit, SalesAnomalyDetector.init,
      SalesAnomalyDetector.is_fitted, dfFive, recPlanes, libId,
      prepare_features, pdCodes, pdCategories, FeatureRow.toList,
      fillna0, PFloat.div, PFloat.isFinite, Except.toOption,
      List.insertionSort, List.orderedInsert, List.replicate]

/-- C9: determinism — the pipeline `fit` + `predict` on a batch is a
function of the contamination rate and the batch alone (the seed is
fixed to 42 at construction), so two runs over the same batch with the
same contamination return identical `anomaly_score` values row for
row. -/
theorem c9_detect_deterministic (lib : NumLib) (c : ℚ) (df : List OrderRecord)
    (out1 out2 : List AnomalyResult × AnomalySummary)
    (h1 : detect_sales_anomalies lib c df = .ok out1)
    (h2 : detect_sales_anomalies lib c df = .ok out2) :
    out1.1.map (·.anomaly_score) = out2.1.map (·.anomaly_score) ∧
    (SalesAnomalyDetector.init c).random_state = 42 := by
  have h3 : out1 = out2 := Except.ok.inj (h1.symm.trans h2)
  exact ⟨by rw [h3], rfl⟩

theorem c9_helper_detect_eq :
    detect_sales_anomalies libId (1/10) dfOne =
      .ok (resOne, .empty 0 0 "No anomalies detected") := by
  simp [detect_sales_anomalies, Bind.bind, Except.bind, SalesAnomalyDetector.fit,
    SalesAnomalyDetector.init, SalesAnomalyDetector.predict,
    get_anomaly_summary, dfOne, resOne, recPlanes, libId,
    prepare_features, pdCodes, pdCategories, scaleRow, FeatureRow.toList,
    fillna0, PFloat.div, PFloat.sub, PFloat.isFinite,
    List.insertionSort, List.orderedInsert]

theorem c9_witness :
    detect_sales_anomalies libId (1/10) dfOne =
      .ok (resOne, .empty 0 0 "No anomalies detected") ∧
    ((resOne, AnomalySummary.empty 0 0 "No anomalies detected").1.map (·.anomaly_score) =
      (resOne, AnomalySummary.empty 0 0 "No anomalies detected").1.map (·.anomaly_score) ∧
     (SalesAnomalyDetector.init (1/10)).random_state = 42) :=
  ⟨c9_helper_detect_eq,
   c9_detect_deterministic libId (1/10) dfOne _ _ c9_helper_detect_eq c9_helper_detect_eq⟩
